import Mathlib

/-!
Shallow embedding of the RLN static group manager and the rln validation
helpers of go-waku (waku/v2/protocol/rln/group_manager/static/static.go and
the rln package constants/helpers), together with theorems settling the
frozen claims about them.

Modelling conventions:
* Go byte slices and strings are `List Nat` (a Go string is a byte sequence,
  and `[]byte(s)` yields exactly its bytes).
* Go `nil` pointers become `Option`; Go `(value, error)` returns become
  `Except Err value` or a component `Option Err`.
* The external Zero-Knowledge Membership Engine (`rln.RLN`) and the Root
  Window Tracker (`MerkleRootTracker`) are not part of the repository; their
  calls (`InsertMember`, `Sync`) are modelled by failure oracles indexed by
  call number, and runs record the members actually inserted and the number
  of `Sync` invocations, so the control flow of the Go code is captured
  exactly.
-/

namespace GoWaku

/-- A byte sequence (Go `[]byte`; also the bytes of a Go `string`). -/
abbrev Bytes := List Nat

/-- `rln.IDCommitment`: a member's public identity commitment. -/
abbrev IDCommitment := Bytes

/-- `rln.IdentityCredential` (go-zerokit-rln): the local participant's
secret/public credential; only `idCommitment` is inspected by this code. -/
structure IdentityCredential where
  idTrapdoor : Bytes
  idNullifier : Bytes
  idSecretHash : Bytes
  idCommitment : Bytes
deriving DecidableEq, Repr

/-- The errors surfaced by this code: the construction mismatch error, the
two `NotConfigured` accessor errors, and opaque engine/tracker failures
(`code` distinguishes distinct external errors). -/
inductive Err where
  | membershipMismatch
  | notConfigured
  | engineFailure (code : Nat)
  | syncFailure (code : Nat)
deriving DecidableEq, Repr

/-- The fields of `StaticGroupManager` that the code reads or writes
(the `rln`, `log` and `rootTracker` handles are external references and not
part of the state we reason about). `none` models a `nil` Go pointer field;
`group = []` models a `nil` slice. -/
structure StaticGroupManager where
  identityCredential : Option IdentityCredential
  membershipIndex : Option Nat
  group : List IDCommitment
deriving DecidableEq, Repr

/-- Outcome of `NewStaticGroupManager`: the Go code indexes
`group[int(index)]` with no bounds check, so an out-of-range index is a
runtime panic, distinct from the returned mismatch error. -/
inductive ConstructResult where
  | panicked
  | mismatch
  | ok (gm : StaticGroupManager)
deriving DecidableEq, Repr

/-- `NewStaticGroupManager` (static.go): checks
`identityCredential.IDCommitment != group[int(index)]` — the indexing
happens first (panic when out of range), then the comparison; on mismatch
the error is returned and no manager is built, otherwise the manager stores
the credential, the index and the group. -/
def NewStaticGroupManager (group : List IDCommitment)
    (identityCredential : IdentityCredential) (index : Nat) : ConstructResult :=
  match group[index]? with
  | none => .panicked
  | some c =>
    if identityCredential.idCommitment ≠ c then
      .mismatch
    else
      .ok { identityCredential := some identityCredential,
            membershipIndex := some index,
            group := group }

/-- Result of a `Start` run: the manager state afterwards, the members this
run inserted into the engine (in call order), the number of
`rootTracker.Sync()` invocations performed, and the returned error. -/
structure StartOutcome where
  gm : StaticGroupManager
  inserted : List IDCommitment
  syncCalls : Nat
  error : Option Err
deriving DecidableEq, Repr

/-- The member loop of `Start` (static.go): for each pending member, call
`rlnInstance.InsertMember` (its failure is decided by the oracle
`insertErr`, keyed by insert-call number `k`) and return its error on
failure; on success call `rootTracker.Sync()` (failure decided by `syncErr`,
keyed by sync-call number) and return its error on failure; otherwise
continue with the next member. -/
def startLoop (pending : List IDCommitment) (k : Nat)
    (inserted : List IDCommitment) (syncCalls : Nat)
    (insertErr : Nat → Option Err) (syncErr : Nat → Option Err) :
    List IDCommitment × Nat × Option Err :=
  match pending with
  | [] => (inserted, syncCalls, none)
  | c :: rest =>
    match insertErr k with
    | some e => (inserted, syncCalls, some e)
    | none =>
      match syncErr syncCalls with
      | some e => (inserted ++ [c], syncCalls + 1, some e)
      | none => startLoop rest (k + 1) (inserted ++ [c]) (syncCalls + 1)
          insertErr syncErr

/-- `Start` (static.go): first `rootTracker.Sync()` (returning its error on
failure), then the member loop over `gm.group`, and on full success
`gm.group = nil` before returning `nil`. On any error the manager state is
returned unchanged (the group is not discarded). -/
def Start (gm : StaticGroupManager) (insertErr : Nat → Option Err)
    (syncErr : Nat → Option Err) : StartOutcome :=
  match syncErr 0 with
  | some e => ⟨gm, [], 1, some e⟩
  | none =>
    match startLoop gm.group 0 [] 1 insertErr syncErr with
    | (inserted, syncCalls, some e) => ⟨gm, inserted, syncCalls, some e⟩
    | (inserted, syncCalls, none) =>
        ⟨{ gm with group := [] }, inserted, syncCalls, none⟩

/-- `InsertMember` (static.go): `gm.rln.InsertMember(pubkey)`; on failure
the error is returned (no `Sync` call); on success `gm.rootTracker.Sync()`
is called once and its error, if any, is returned. The result records the
engine contents, the number of `Sync` invocations and the returned error. -/
def InsertMember (engine : List IDCommitment) (pubkey : IDCommitment)
    (insertErr : Option Err) (syncErr : Option Err) :
    List IDCommitment × Nat × Option Err :=
  match insertErr with
  | some e => (engine, 0, some e)
  | none =>
    match syncErr with
    | some e => (engine ++ [pubkey], 1, some e)
    | none => (engine ++ [pubkey], 1, none)

/-- `IdentityCredentials` (static.go): returns the `NotConfigured`-style
error when the field is `nil`, the stored credential otherwise. -/
def IdentityCredentials (gm : StaticGroupManager) :
    Except Err IdentityCredential :=
  match gm.identityCredential with
  | none => .error .notConfigured
  | some c => .ok c

/-- `MembershipIndex` accessor (static.go): returns the
`NotConfigured`-style error when the field is `nil`, the stored index
otherwise. -/
def MembershipIndexGet (gm : StaticGroupManager) : Except Err Nat :=
  match gm.membershipIndex with
  | none => .error .notConfigured
  | some i => .ok i

/-- `pb.RateLimitProof`: the wire-level proof attached to a message. -/
structure RateLimitProofPB where
  proof : Bytes
  merkleRoot : Bytes
  epoch : Bytes
  shareX : Bytes
  shareY : Bytes
  nullifier : Bytes
  rlnIdentifier : Bytes
deriving DecidableEq, Repr

/-- `pb.WakuMessage`: the fields this code reads. `contentTopic` is the
byte sequence of the Go string; `rateLimitProof = none` models an absent
(`nil`) proof field. -/
structure WakuMessage where
  payload : Bytes
  contentTopic : Bytes
  rateLimitProof : Option RateLimitProofPB
deriving DecidableEq, Repr

/-- `rln.RateLimitProof`: the decoded proof handed to the engine. The
fixed-size decoders `rln.Bytes32` / `rln.Bytes128` live in the external
go-zerokit-rln library (the spec treats the fields as already-decoded
fixed-size values), so the fields carry the bytes through. -/
structure RateLimitProof where
  proof : Bytes
  merkleRoot : Bytes
  epoch : Bytes
  shareX : Bytes
  shareY : Bytes
  nullifier : Bytes
  rlnIdentifier : Bytes
deriving DecidableEq, Repr

/-- `toRLNSignal` (rln package): a `nil` message yields the empty byte
slice; otherwise `append(wakuMessage.Payload, contentTopicBytes...)`. -/
def toRLNSignal : Option WakuMessage → Bytes
  | none => []
  | some m => m.payload ++ m.contentTopic

/-- `toRateLimitProof` (rln package): `nil` when the message is `nil` or
carries no `RateLimitProof`; otherwise the decoded proof, field by field. -/
def toRateLimitProof : Option WakuMessage → Option RateLimitProof
  | none => none
  | some m =>
    match m.rateLimitProof with
    | none => none
    | some p =>
      some { proof := p.proof, merkleRoot := p.merkleRoot, epoch := p.epoch,
             shareX := p.shareX, shareY := p.shareY,
             nullifier := p.nullifier, rlnIdentifier := p.rlnIdentifier }

/-- `maxClockGapSeconds` (rln package): the maximum clock difference
between peers, in seconds. -/
def maxClockGapSeconds : Nat := 20

/-- `maxEpochGap` (rln package):
`int64(maxClockGapSeconds / rln.EPOCH_UNIT_SECONDS)`. The constant
`rln.EPOCH_UNIT_SECONDS` is an unsigned integer from the external
go-zerokit-rln library, so it stays a parameter; the Go division is
unsigned integer division, i.e. `Nat` division. -/
def maxEpochGap (epochUnitSeconds : Nat) : Int :=
  Int.ofNat (maxClockGapSeconds / epochUnitSeconds)

/-- `messageValidationResult` (rln package): the four classifications. -/
inductive messageValidationResult where
  | validationError
  | validMessage
  | invalidMessage
  | spamMessage
deriving DecidableEq, Repr

/-- The integer distance between the proof's epoch and the local current
epoch (epochs as integers, distance as absolute difference). -/
def epochDistance (proofEpoch currentEpoch : Int) : Int :=
  |proofEpoch - currentEpoch|

/-- Modelled from the spec: steps 3–6 of the message-validation pipeline
(§4.3) after the epoch-tolerance step — root acceptability, cryptographic
verification (`none` = verification-layer error, `some b` = definitive
answer `b`), then the rate/uniqueness check. The Go function
(`validateMessage` of the rln package) is not under src/; only its
constants and helpers are. The `Nat` component counts cryptographic
verification invocations. -/
def validatePostEpoch (rootAcceptable : Bool) (verifyResult : Option Bool)
    (withinRate : Bool) : messageValidationResult × Nat :=
  if !rootAcceptable then (.invalidMessage, 0)
  else
    match verifyResult with
    | none => (.validationError, 1)
    | some false => (.invalidMessage, 1)
    | some true =>
      if !withinRate then (.spamMessage, 1) else (.validMessage, 1)

/-- Modelled from the spec: the message-validation pipeline for a message
with an attached proof (§4.3): the epoch-tolerance step classifies
`Invalid` when the epoch distance exceeds `gap` (short-circuiting, so no
verification call happens), and otherwise hands over to the remaining
steps. The Go function (`validateMessage` of the rln package) is not under
src/. -/
def validateMessage (gap : Int) (proofEpoch currentEpoch : Int)
    (rootAcceptable : Bool) (verifyResult : Option Bool) (withinRate : Bool) :
    messageValidationResult × Nat :=
  if epochDistance proofEpoch currentEpoch > gap then (.invalidMessage, 0)
  else validatePostEpoch rootAcceptable verifyResult withinRate

theorem startLoop_all_ok (pending : List IDCommitment) (k : Nat)
    (inserted : List IDCommitment) (syncCalls : Nat)
    (insertErr syncErr : Nat → Option Err)
    (hins : ∀ j, j < pending.length → insertErr (k + j) = none)
    (hsync : ∀ j, j < pending.length → syncErr (syncCalls + j) = none) :
    startLoop pending k inserted syncCalls insertErr syncErr =
      (inserted ++ pending, syncCalls + pending.length, none) := by
  induction pending generalizing k inserted syncCalls with
  | nil => simp [startLoop]
  | cons c rest ih =>
    have h0 : insertErr k = none := by simpa using hins 0 (by simp)
    have h1 : syncErr syncCalls = none := by simpa using hsync 0 (by simp)
    rw [startLoop, h0, h1,
      ih (k + 1) (inserted ++ [c]) (syncCalls + 1)
        (fun j hj => by
          have h2 : k + 1 + j = k + (j + 1) := by omega
          rw [h2]
          exact hins (j + 1) (by simpa using Nat.succ_lt_succ hj))
        (fun j hj => by
          have h2 : syncCalls + 1 + j = syncCalls + (j + 1) := by omega
          rw [h2]
          exact hsync (j + 1) (by simpa using Nat.succ_lt_succ hj))]
    simp only [List.append_assoc, List.singleton_append, List.length_cons,
      Prod.mk.injEq]
    exact ⟨trivial, by omega, trivial⟩

theorem startLoop_insert_fails (pending : List IDCommitment) (k : Nat)
    (inserted : List IDCommitment) (syncCalls : Nat)
    (insertErr syncErr : Nat → Option Err) (m : Nat) (e : Err)
    (hm : m < pending.length)
    (hfail : insertErr (k + m) = some e)
    (hok : ∀ j, j < m → insertErr (k + j) = none)
    (hsync : ∀ j, j < m → syncErr (syncCalls + j) = none) :
    startLoop pending k inserted syncCalls insertErr syncErr =
      (inserted ++ pending.take m, syncCalls + m, some e) := by
  induction pending generalizing k inserted syncCalls m with
  | nil => simp at hm
  | cons c rest ih =>
    cases m with
    | zero =>
      have h0 : insertErr k = some e := by simpa using hfail
      rw [startLoop, h0]
      simp
    | succ m' =>
      have h0 : insertErr k = none := by simpa using hok 0 (Nat.succ_pos _)
      have h1 : syncErr syncCalls = none := by simpa using hsync 0 (Nat.succ_pos _)
      rw [startLoop, h0, h1,
        ih (k + 1) (inserted ++ [c]) (syncCalls + 1) m'
          (by simpa using Nat.lt_of_succ_lt_succ hm)
          (by
            have h2 : k + 1 + m' = k + (m' + 1) := by omega
            rw [h2]
            exact hfail)
          (fun j hj => by
            have h2 : k + 1 + j = k + (j + 1) := by omega
            rw [h2]
            exact hok (j + 1) (Nat.succ_lt_succ hj))
          (fun j hj => by
            have h2 : syncCalls + 1 + j = syncCalls + (j + 1) := by omega
            rw [h2]
            exact hsync (j + 1) (Nat.succ_lt_succ hj))]
      simp only [List.take_succ_cons, List.append_assoc, List.singleton_append,
        Prod.mk.injEq]
      exact ⟨trivial, by omega, trivial⟩

theorem startLoop_sync_fails (pending : List IDCommitment) (k : Nat)
    (inserted : List IDCommitment) (syncCalls : Nat)
    (insertErr syncErr : Nat → Option Err) (m : Nat) (e : Err)
    (hm : m < pending.length)
    (hins : ∀ j, j ≤ m → insertErr (k + j) = none)
    (hok : ∀ j, j < m → syncErr (syncCalls + j) = none)
    (hfail : syncErr (syncCalls + m) = some e) :
    startLoop pending k inserted syncCalls insertErr syncErr =
      (inserted ++ pending.take (m + 1), syncCalls + m + 1, some e) := by
  induction pending generalizing k inserted syncCalls m with
  | nil => simp at hm
  | cons c rest ih =>
    cases m with
    | zero =>
      have h0 : insertErr k = none := by simpa using hins 0 (Nat.le_refl _)
      have h1 : syncErr syncCalls = some e := by simpa using hfail
      rw [startLoop, h0, h1]
      simp
    | succ m' =>
      have h0 : insertErr k = none := by simpa using hins 0 (Nat.zero_le _)
      have h1 : syncErr syncCalls = none := by simpa using hok 0 (Nat.succ_pos _)
      rw [startLoop, h0, h1,
        ih (k + 1) (inserted ++ [c]) (syncCalls + 1) m'
          (by simpa using Nat.lt_of_succ_lt_succ hm)
          (fun j hj => by
            have h2 : k + 1 + j = k + (j + 1) := by omega
            rw [h2]
            exact hins (j + 1) (Nat.succ_le_succ hj))
          (fun j hj => by
            have h2 : syncCalls + 1 + j = syncCalls + (j + 1) := by omega
            rw [h2]
            exact hok (j + 1) (Nat.succ_lt_succ hj))
          (by
            have h2 : syncCalls + 1 + m' = syncCalls + (m' + 1) := by omega
            rw [h2]
            exact hfail)]
      simp only [List.take_succ_cons, List.append_assoc, List.singleton_append,
        Prod.mk.injEq]
      exact ⟨trivial, by omega, trivial⟩

/-- C1: for every group `G`, credential `C` and index `i < length G`,
`NewStaticGroupManager G C i` returns the mismatch error when `G[i]` differs
from `C`'s identity commitment, and otherwise a manager storing exactly
`C`, `i` and `G`; in the error case no manager is produced (and no member is
inserted — construction performs no engine call at all). -/
theorem NewStaticGroupManager_contract (group : List IDCommitment)
    (cred : IdentityCredential) (i : Nat) (h : i < group.length) :
    (group[i] ≠ cred.idCommitment →
      NewStaticGroupManager group cred i = .mismatch) ∧
    (group[i] = cred.idCommitment →
      NewStaticGroupManager group cred i =
        .ok ⟨some cred, some i, group⟩) := by
  have hg : group[i]? = some group[i] := List.getElem?_eq_getElem h
  constructor
  · intro hne
    simp [NewStaticGroupManager, hg, Ne.symm hne]
  · intro heq
    simp [NewStaticGroupManager, hg, heq]

theorem NewStaticGroupManager_contract_witness :
    NewStaticGroupManager [[1], [2]] ⟨[], [], [], [2]⟩ 1 =
      .ok ⟨some ⟨[], [], [], [2]⟩, some 1, [[1], [2]]⟩ ∧
    NewStaticGroupManager [[1], [2]] ⟨[], [], [], [9]⟩ 0 = .mismatch :=
  ⟨(NewStaticGroupManager_contract [[1], [2]] ⟨[], [], [], [2]⟩ 1
      (by decide)).2 (by decide),
   (NewStaticGroupManager_contract [[1], [2]] ⟨[], [], [], [9]⟩ 0
      (by decide)).1 (by decide)⟩

/-- C10: the membership check indexes the group with no bounds check, so for
any index at or beyond the group's length the construction is the
out-of-bounds panic, not a mismatch error return. -/
theorem NewStaticGroupManager_out_of_range (group : List IDCommitment)
    (cred : IdentityCredential) (i : Nat) (h : group.length ≤ i) :
    NewStaticGroupManager group cred i = .panicked := by
  have hg : group[i]? = none := by
    rw [List.getElem?_eq_none_iff]
    exact h
  simp [NewStaticGroupManager, hg]

theorem NewStaticGroupManager_out_of_range_witness :
    NewStaticGroupManager [[1]] ⟨[], [], [], [1]⟩ 1 = .panicked :=
  NewStaticGroupManager_out_of_range [[1]] ⟨[], [], [], [1]⟩ 1 (by decide)

/-- C2: `Start` syncs the tracker once, then inserts each group member in
list order with a sync after each successful insert; it returns the first
error from any insert or sync — when the initial sync fails nothing is
inserted; when the insert of member `k` fails exactly members `0..k-1` are
inserted and no further sync is attempted; when the sync after member `k`
fails, members `0..k` are inserted; and when all steps succeed it returns
no error after exactly `N` inserts and `N + 1` syncs. -/
theorem Start_spec (gm : StaticGroupManager)
    (insertErr syncErr : Nat → Option Err) :
    ((∀ j, j < gm.group.length → insertErr j = none) →
     (∀ j, j < gm.group.length + 1 → syncErr j = none) →
      Start gm insertErr syncErr =
        ⟨{ gm with group := [] }, gm.group, gm.group.length + 1, none⟩) ∧
    (∀ e, syncErr 0 = some e →
      Start gm insertErr syncErr = ⟨gm, [], 1, some e⟩) ∧
    (∀ k e, k < gm.group.length → insertErr k = some e →
      (∀ j, j < k → insertErr j = none) → (∀ j, j ≤ k → syncErr j = none) →
      Start gm insertErr syncErr = ⟨gm, gm.group.take k, k + 1, some e⟩) ∧
    (∀ k e, k < gm.group.length → (∀ j, j ≤ k → insertErr j = none) →
      (∀ j, j ≤ k → syncErr j = none) → syncErr (k + 1) = some e →
      Start gm insertErr syncErr =
        ⟨gm, gm.group.take (k + 1), k + 2, some e⟩) := by
  refine ⟨?_, ?_, ?_, ?_⟩
  · intro hins hsync
    have h0 : syncErr 0 = none := hsync 0 (by omega)
    simp only [Start, h0]
    rw [startLoop_all_ok gm.group 0 [] 1 insertErr syncErr
      (fun j hj => by simpa using hins j hj)
      (fun j hj => hsync (1 + j) (by omega))]
    simp [StartOutcome.mk.injEq]
    omega
  · intro e h0
    simp [Start, h0]
  · intro k e hk hfail hok hsync
    have h0 : syncErr 0 = none := hsync 0 (by omega)
    simp only [Start, h0]
    rw [startLoop_insert_fails gm.group 0 [] 1 insertErr syncErr k e hk
      (by simpa using hfail)
      (fun j hj => by simpa using hok j hj)
      (fun j hj => hsync (1 + j) (by omega))]
    simp [StartOutcome.mk.injEq]
    omega
  · intro k e hk hins hsync hfail
    have h0 : syncErr 0 = none := hsync 0 (by omega)
    simp only [Start, h0]
    rw [startLoop_sync_fails gm.group 0 [] 1 insertErr syncErr k e hk
      (fun j hj => by simpa using hins j hj)
      (fun j hj => hsync (1 + j) (by omega))
      (by
        have h2 : (1 : Nat) + k = k + 1 := by omega
        rw [h2]
        exact hfail)]
    simp [StartOutcome.mk.injEq]
    omega

theorem Start_spec_witness :
    Start ⟨some ⟨[], [], [], [1]⟩, some 0, [[1], [2]]⟩
        (fun _ => none) (fun _ => none) =
      ⟨⟨some ⟨[], [], [], [1]⟩, some 0, []⟩, [[1], [2]], 3, none⟩ :=
  (Start_spec ⟨some ⟨[], [], [], [1]⟩, some 0, [[1], [2]]⟩
    (fun _ => none) (fun _ => none)).1 (fun _ _ => rfl) (fun _ _ => rfl)

/-- C8: after a successful `Start` the stored group is discarded (set to
the empty/nil slice) while the stored credential and index are unchanged;
after a failed `Start` the whole manager state, group included, is
unchanged. -/
theorem Start_group_frame (gm : StaticGroupManager)
    (insertErr syncErr : Nat → Option Err) :
    ((Start gm insertErr syncErr).error = none →
      (Start gm insertErr syncErr).gm = { gm with group := [] }) ∧
    (Start gm insertErr syncErr).gm.identityCredential =
      gm.identityCredential ∧
    (Start gm insertErr syncErr).gm.membershipIndex = gm.membershipIndex ∧
    (∀ e, (Start gm insertErr syncErr).error = some e →
      (Start gm insertErr syncErr).gm = gm) := by
  cases h0 : syncErr 0 with
  | some e => simp [Start, h0]
  | none =>
    rcases h1 : startLoop gm.group 0 [] 1 insertErr syncErr with ⟨ins, sc, err⟩
    cases err with
    | none => simp [Start, h0, h1]
    | some e => simp [Start, h0, h1]

theorem Start_group_frame_witness :
    (Start ⟨some ⟨[], [], [], [3]⟩, some 0, [[3]]⟩
        (fun _ => none) (fun _ => none)).gm =
      ⟨some ⟨[], [], [], [3]⟩, some 0, []⟩ :=
  (Start_group_frame ⟨some ⟨[], [], [], [3]⟩, some 0, [[3]]⟩
    (fun _ => none) (fun _ => none)).1 (by decide)

/-- C4: when the engine insert inside `InsertMember` fails, its error is
returned and `Sync` is not invoked (zero sync calls, engine unchanged);
when the insert succeeds, `Sync` is invoked exactly once and its error, if
any, is what the caller gets. -/
theorem InsertMember_spec (engine : List IDCommitment)
    (pubkey : IDCommitment) (insertErr syncErr : Option Err) :
    (∀ e, insertErr = some e →
      InsertMember engine pubkey insertErr syncErr = (engine, 0, some e)) ∧
    (insertErr = none →
      InsertMember engine pubkey insertErr syncErr =
        (engine ++ [pubkey], 1, syncErr)) := by
  constructor
  · intro e h
    simp [InsertMember, h]
  · intro h
    cases syncErr <;> simp [InsertMember, h]

theorem InsertMember_spec_witness :
    InsertMember [[1]] [2] (some (.engineFailure 0)) none =
      ([[1]], 0, some (.engineFailure 0)) ∧
    InsertMember [[1]] [2] none (some (.syncFailure 0)) =
      ([[1], [2]], 1, some (.syncFailure 0)) :=
  ⟨(InsertMember_spec [[1]] [2] (some (.engineFailure 0)) none).1
      (.engineFailure 0) rfl,
   (InsertMember_spec [[1]] [2] none (some (.syncFailure 0))).2 rfl⟩

/-- C3: the signal of a message is its payload concatenated with its
content-topic bytes, with no separator; derivation is deterministic, and
with the topic fixed distinct payloads give distinct signals, while with
the payload fixed distinct topics give distinct signals. -/
theorem toRLNSignal_spec (m1 m2 : WakuMessage) :
    toRLNSignal (some m1) = m1.payload ++ m1.contentTopic ∧
    (m1.payload = m2.payload → m1.contentTopic = m2.contentTopic →
      toRLNSignal (some m1) = toRLNSignal (some m2)) ∧
    (m1.contentTopic = m2.contentTopic → m1.payload ≠ m2.payload →
      toRLNSignal (some m1) ≠ toRLNSignal (some m2)) ∧
    (m1.payload = m2.payload → m1.contentTopic ≠ m2.contentTopic →
      toRLNSignal (some m1) ≠ toRLNSignal (some m2)) := by
  refine ⟨rfl, ?_, ?_, ?_⟩
  · intro hp ht
    simp [toRLNSignal, hp, ht]
  · intro ht hp hEq
    have h1 : m1.payload ++ m1.contentTopic =
        m2.payload ++ m2.contentTopic := hEq
    rw [ht] at h1
    exact hp (List.append_cancel_right h1)
  · intro hp ht hEq
    have h1 : m1.payload ++ m1.contentTopic =
        m2.payload ++ m2.contentTopic := hEq
    rw [hp] at h1
    exact ht (List.append_cancel_left h1)

theorem toRLNSignal_spec_witness :
    toRLNSignal (some ⟨[1], [2], none⟩) = [1, 2] ∧
    toRLNSignal (some ⟨[1], [2], none⟩) ≠ toRLNSignal (some ⟨[3], [2], none⟩) ∧
    toRLNSignal (some ⟨[1], [2], none⟩) ≠ toRLNSignal (some ⟨[1], [5], none⟩) :=
  ⟨(toRLNSignal_spec ⟨[1], [2], none⟩ ⟨[1], [2], none⟩).1,
   (toRLNSignal_spec ⟨[1], [2], none⟩ ⟨[3], [2], none⟩).2.2.1 rfl (by decide),
   (toRLNSignal_spec ⟨[1], [2], none⟩ ⟨[1], [5], none⟩).2.2.2 rfl (by decide)⟩

/-- C5: `maxEpochGap` is the 20-second clock-skew tolerance divided by the
epoch unit length, rounded down: Go unsigned integer division coincides
with the mathematical floor of the exact quotient. -/
theorem maxEpochGap_is_floor (epochUnitSeconds : Nat)
    (h : 0 < epochUnitSeconds) :
    maxEpochGap epochUnitSeconds =
      ⌊(maxClockGapSeconds : ℚ) / (epochUnitSeconds : ℚ)⌋ := by
  have h0 : (0 : ℚ) ≤ (maxClockGapSeconds : ℚ) / (epochUnitSeconds : ℚ) := by
    positivity
  rw [← Int.natCast_floor_eq_floor h0, Nat.floor_div_eq_div]
  rfl

theorem maxEpochGap_is_floor_witness :
    maxEpochGap 10 = ⌊(maxClockGapSeconds : ℚ) / ((10 : Nat) : ℚ)⌋ :=
  maxEpochGap_is_floor 10 (by decide)

/-- C6: a proof whose epoch distance from current equals exactly the
maximum gap passes the epoch-tolerance step (validation proceeds to the
remaining steps), while distance `gap + 1` classifies the message Invalid
with zero cryptographic-verification invocations. -/
theorem epoch_tolerance_boundary (gap proofEpoch currentEpoch
    proofEpochB currentEpochB : Int) (rootAcceptable : Bool)
    (verifyResult : Option Bool) (withinRate : Bool)
    (hAt : epochDistance proofEpoch currentEpoch = gap)
    (hOver : epochDistance proofEpochB currentEpochB = gap + 1) :
    validateMessage gap proofEpoch currentEpoch rootAcceptable
      verifyResult withinRate =
      validatePostEpoch rootAcceptable verifyResult withinRate ∧
    validateMessage gap proofEpochB currentEpochB rootAcceptable
      verifyResult withinRate = (.invalidMessage, 0) := by
  constructor
  · rw [validateMessage, hAt]
    simp
  · rw [validateMessage, hOver]
    simp

theorem epoch_tolerance_boundary_witness :
    validateMessage 2 5 3 true (some true) true = (.validMessage, 1) ∧
    validateMessage 2 6 3 true (some true) true = (.invalidMessage, 0) := by
  have h := epoch_tolerance_boundary 2 5 3 6 3 true (some true) true
    (by decide) (by decide)
  exact ⟨h.1.trans (by decide), h.2⟩

/-- C7: a manager returned by a successful construction answers both
accessors without error, with exactly the constructed credential and index;
the `NotConfigured` error branch fires exactly when the corresponding field
is unset. -/
theorem accessors_configured (group : List IDCommitment)
    (cred : IdentityCredential) (i : Nat) (gm : StaticGroupManager)
    (h : NewStaticGroupManager group cred i = .ok gm) :
    IdentityCredentials gm = .ok cred ∧ MembershipIndexGet gm = .ok i ∧
    (∀ g : StaticGroupManager,
      (IdentityCredentials g = .error .notConfigured ↔
        g.identityCredential = none) ∧
      (MembershipIndexGet g = .error .notConfigured ↔
        g.membershipIndex = none)) := by
  have hgm : gm = ⟨some cred, some i, group⟩ := by
    unfold NewStaticGroupManager at h
    cases hg : group[i]? with
    | none =>
      rw [hg] at h
      simp at h
    | some c =>
      rw [hg] at h
      by_cases hc : cred.idCommitment ≠ c
      · simp [hc] at h
      · simp [hc] at h
        exact h.symm
  subst hgm
  refine ⟨rfl, rfl, ?_⟩
  intro g
  constructor
  · cases hg : g.identityCredential <;> simp [IdentityCredentials, hg]
  · cases hg : g.membershipIndex <;> simp [MembershipIndexGet, hg]

theorem accessors_configured_witness :
    IdentityCredentials ⟨some ⟨[], [], [], [7]⟩, some 0, [[7]]⟩ =
      .ok ⟨[], [], [], [7]⟩ ∧
    MembershipIndexGet ⟨some ⟨[], [], [], [7]⟩, some 0, [[7]]⟩ = .ok 0 :=
  ⟨(accessors_configured [[7]] ⟨[], [], [], [7]⟩ 0
      ⟨some ⟨[], [], [], [7]⟩, some 0, [[7]]⟩ (by decide)).1,
   (accessors_configured [[7]] ⟨[], [], [], [7]⟩ 0
      ⟨some ⟨[], [], [], [7]⟩, some 0, [[7]]⟩ (by decide)).2.1⟩

/-- C9: proof and signal extraction are total on absent input —
`toRateLimitProof` yields `none` exactly when the message is `nil` or
carries no proof field, and `toRLNSignal` of a `nil` message is the empty
byte sequence. -/
theorem extraction_total_on_absent :
    (∀ m : Option WakuMessage,
      toRateLimitProof m = none ↔
        (m = none ∨ ∃ w, m = some w ∧ w.rateLimitProof = none)) ∧
    toRLNSignal none = [] := by
  constructor
  · intro m
    cases m with
    | none => simp [toRateLimitProof]
    | some w =>
      cases hp : w.rateLimitProof <;> simp [toRateLimitProof, hp]
  · rfl

end GoWaku
